import Mathlib

/-!
Shallow embedding of the ui-test-agent scenario engine
(`src/ui_test_agent/{dsl,locators,oracle,semantic_eval,runner}.py`)
and proofs about the frozen claims.

Python values flowing through the DSL are modelled by the inductive
`Value`; Python dicts are ordered association lists (insertion order
preserved, unique keys in practice), matching CPython semantics.
-/

set_option maxHeartbeats 1000000

/-- Value models the Python/YAML values that flow through the scenario DSL:
strings, ints, booleans, None, lists and (ordered) dicts. -/
inductive Value where
  | vNull
  | vBool (b : Bool)
  | vInt (n : Int)
  | vStr (s : String)
  | vList (items : List Value)
  | vDict (entries : List (String × Value))
deriving Repr

/-- listLookup models Python `d[k]` / `k in d` on an ordered dict:
the first binding of the key wins. -/
def listLookup : List (String × Value) → String → Option Value
  | [], _ => none
  | (k, v) :: rest, key => if k = key then some v else listLookup rest key

/-- listInsert models Python `d[k] = v` on an ordered dict: an existing key
keeps its position and is overwritten, a new key is appended at the end. -/
def listInsert : List (String × Value) → String → Value → List (String × Value)
  | [], key, value => [(key, value)]
  | (k, v) :: rest, key, value =>
    if k = key then (key, value) :: rest
    else (k, v) :: listInsert rest key value

/-- keys of an ordered dict. -/
def dictKeys (l : List (String × Value)) : List String := l.map Prod.fst

/-- ExErr models the distinct exception classes that can cross the
engine: the repo-defined `OracleError` and `ScenarioError`, plain Python
`RuntimeError`, and the Playwright errors (whose `TimeoutError` is NOT a
subclass of the repo exceptions). -/
inductive ExErr where
  | oracleError (msg : String)
  | scenarioError (msg : String)
  | runtimeError (msg : String)
  | pwTimeoutError (msg : String)
  | pwOtherError (msg : String)
deriving Repr, DecidableEq

/- ===================== dsl.py ===================== -/

/-- deep_merge from dsl.py: `result = dict(base)`, then for each override
entry, merge recursively when both sides hold a dict at that key, otherwise
the override value replaces the base value. -/
def deep_merge : List (String × Value) → List (String × Value) → List (String × Value)
  | result, [] => result
  | result, (key, Value.vDict o) :: rest =>
    (match listLookup result key with
     | some (Value.vDict b) => deep_merge (listInsert result key (Value.vDict (deep_merge b o))) rest
     | _ => deep_merge (listInsert result key (Value.vDict o)) rest)
  | result, (key, value) :: rest => deep_merge (listInsert result key value) rest

/-- isTokenChar models the regex character class `[A-Za-z0-9_]` of
`TOKEN_PATTERN`. -/
def isTokenChar (c : Char) : Bool := c.isAlphanum || c = '_'

/-- parseSegs models the greedy `(?:\.[A-Za-z0-9_]+)+` part of
`TOKEN_PATTERN`: starting at the given characters, consume as many
`.segment` groups as possible and return the segments with the rest. -/
def parseSegs (l : List Char) : List String × List Char :=
  match l with
  | '.' :: rest =>
    if (rest.takeWhile isTokenChar).isEmpty then ([], l)
    else
      let pr := parseSegs (rest.dropWhile isTokenChar)
      (String.mk (rest.takeWhile isTokenChar) :: pr.1, pr.2)
  | _ => ([], l)
termination_by l.length
decreasing_by
  simp only [List.length_cons]
  have h := (List.dropWhile_sublist (l := rest) isTokenChar).length_le
  omega

/-- parseSegs never returns a longer rest than its input; this bound is
what makes the substitution scan in `interpolate` terminate. -/
theorem parseSegs_rest_length_le (l : List Char) : (parseSegs l).2.length ≤ l.length := by
  have H : ∀ n (l : List Char), l.length ≤ n → (parseSegs l).2.length ≤ l.length := by
    intro n
    induction n with
    | zero =>
      intro l hl
      have : l = [] := List.length_eq_zero.mp (Nat.le_zero.mp hl)
      subst this
      simp [parseSegs]
    | succ n ih =>
      intro l hl
      rw [parseSegs.eq_def]
      split
      · next rest =>
        split
        · simp
        · simp only
          have hd : (rest.dropWhile isTokenChar).length ≤ n := by
            have h1 := (List.dropWhile_sublist (l := rest) isTokenChar).length_le
            simp only [List.length_cons] at hl
            omega
          have h2 := ih (rest.dropWhile isTokenChar) hd
          have h3 := (List.dropWhile_sublist (l := rest) isTokenChar).length_le
          simp only [List.length_cons]
          omega
      · simp
  exact H l.length l (le_refl _)

/-- extract_env_value from dsl.py: walk the dotted path through nested
dicts; a missing key or a non-dict level raises `KeyError(part)`. -/
def extract_env_value : List String → Value → Except String Value
  | [], current => .ok current
  | part :: rest, current =>
    match current with
    | .vDict entries =>
      match listLookup entries part with
      | some v => extract_env_value rest v
      | none => .error part
    | _ => .error part

/-- pyStr models Python `str(...)` on the scalar values the DSL
substitutes; containers are rendered in a repr-like form (string escape
corner cases are not modelled, no claim exercises them). -/
def pyStr : Value → String
  | .vNull => "None"
  | .vBool true => "True"
  | .vBool false => "False"
  | .vInt n => toString n
  | .vStr s => s
  | .vList items => "[" ++ String.intercalate ", " (items.map pyStrRepr) ++ "]"
  | .vDict _ => "\x7b...\x7d"
where
  /-- repr-like rendering of list elements. -/
  pyStrRepr : Value → String
  | .vStr s => String.mk ('\'' :: (s.toList ++ ['\'']))
  | .vNull => "None"
  | .vBool true => "True"
  | .vBool false => "False"
  | .vInt n => toString n
  | _ => "..."

/-- tokenText rebuilds the full matched token text `$env.a.b` from its
parsed segments (used in the `ScenarioError` message). -/
def tokenText (segs : List String) : String :=
  "$env" ++ String.join (segs.map (fun s => "." ++ s))

/-- interpolate models `_interpolate` from dsl.py: `TOKEN_PATTERN.sub`
scans left to right; each non-overlapping match of `$env(\.[A-Za-z0-9_]+)+`
is replaced by the stringified env value, and an unresolved dotted path
raises `ScenarioError` naming the token. -/
def interpolate (env : List (String × Value)) : List Char → Except ExErr (List Char)
  | [] => .ok []
  | c :: cs =>
    if c = '$' ∧ cs.take 3 = ['e', 'n', 'v'] ∧ (parseSegs (cs.drop 3)).1 ≠ [] then
      match extract_env_value (parseSegs (cs.drop 3)).1 (Value.vDict env) with
      | .error _ =>
        .error (.scenarioError ("Missing env value for " ++ tokenText (parseSegs (cs.drop 3)).1))
      | .ok v =>
        match interpolate env (parseSegs (cs.drop 3)).2 with
        | .ok tail => .ok ((pyStr v).toList ++ tail)
        | .error e => .error e
    else
      match interpolate env cs with
      | .ok tail => .ok (c :: tail)
      | .error e => .error e
termination_by l => l.length
decreasing_by
  · have h1 : (parseSegs (cs.drop 3)).2.length ≤ (cs.drop 3).length :=
      parseSegs_rest_length_le (cs.drop 3)
    have h2 : (cs.drop 3).length ≤ cs.length := by simp [List.length_drop]
    simp only [List.length_cons]; omega
  · simp only [List.length_cons]; omega

/-- interpolateStr wraps `interpolate` at `String` level. -/
def interpolateStr (env : List (String × Value)) (s : String) : Except ExErr String :=
  match interpolate env s.toList with
  | .ok cs => .ok (String.mk cs)
  | .error e => .error e

mutual
/-- resolve_value from dsl.py: recursively rebuild dicts and lists and
interpolate every string scalar; any other scalar passes through. -/
def resolve_value (env : List (String × Value)) : Value → Except ExErr Value
  | .vDict entries =>
    match resolve_entries env entries with
    | .ok es => .ok (.vDict es)
    | .error e => .error e
  | .vList items =>
    match resolve_items env items with
    | .ok vs => .ok (.vList vs)
    | .error e => .error e
  | .vStr s =>
    match interpolateStr env s with
    | .ok t => .ok (.vStr t)
    | .error e => .error e
  | v => .ok v

/-- resolve_entries resolves each value of a dict in order. -/
def resolve_entries (env : List (String × Value)) : List (String × Value) → Except ExErr (List (String × Value))
  | [] => .ok []
  | (k, v) :: rest =>
    match resolve_value env v with
    | .ok v2 =>
      match resolve_entries env rest with
      | .ok rest2 => .ok ((k, v2) :: rest2)
      | .error e => .error e
    | .error e => .error e

/-- resolve_items resolves each element of a list in order. -/
def resolve_items (env : List (String × Value)) : List Value → Except ExErr (List Value)
  | [] => .ok []
  | v :: rest =>
    match resolve_value env v with
    | .ok v2 =>
      match resolve_items env rest with
      | .ok rest2 => .ok (v2 :: rest2)
      | .error e => .error e
    | .error e => .error e
end

/-- resolve_flow from dsl.py: resolve each step of the flow in order. -/
def resolve_flow (env : List (String × Value)) (flow : List Value) : Except ExErr (List Value) :=
  resolve_items env flow

/-- Scenario mirrors the dataclass from dsl.py. -/
structure Scenario where
  meta : List (String × Value)
  env : List (String × Value)
  flow : List Value
deriving Repr

/-- load_scenario from dsl.py, after the file read and YAML parse (both
external): reject a document without `flow`, copy `meta` as a dict, merge
the base env and the document env, and resolve the flow against the merged
env. Note that `meta` is NOT passed through `_resolve_value`. -/
def load_scenario (raw : List (String × Value)) (base_env : Option (List (String × Value))) :
    Except ExErr Scenario :=
  if (listLookup raw "flow").isNone then .error (.scenarioError "Scenario missing flow")
  else
    match (match listLookup raw "meta" with
           | none => some ([] : List (String × Value))
           | some (.vDict m) => some m
           | some _ => none) with
    | none => .error (.runtimeError "meta is not a mapping")
    | some meta =>
      let env0 : List (String × Value) := []
      let env1 := match base_env with
        | some b => if b.isEmpty then env0 else deep_merge env0 b
        | none => env0
      match (match listLookup raw "env" with
             | none => some ([] : List (String × Value))
             | some (.vDict e) => some e
             | some _ => none) with
      | none => .error (.runtimeError "env is not a mapping")
      | some envDoc =>
        let env2 := deep_merge env1 envDoc
        match listLookup raw "flow" with
        | some (.vList fl) =>
          match resolve_flow env2 fl with
          | .ok flow2 => .ok { meta := meta, env := env2, flow := flow2 }
          | .error e => .error e
        | _ => .error (.runtimeError "flow is not a list")

/- ===================== locators.py ===================== -/

/-- containsSub models the Python substring test `needle in hay`. -/
def containsSub (hay needle : String) : Bool :=
  (List.range (hay.toList.length + 1)).any (fun i => needle.toList.isPrefixOf (hay.toList.drop i))

/-- startsWithSub models Python `s.startswith(pre)`. -/
def startsWithSub (s pre : String) : Bool := pre.toList.isPrefixOf s.toList

/-- pyStrip models Python `str.strip()` with no argument: drop leading and
trailing whitespace. -/
def pyStrip (s : String) : String :=
  String.mk (((s.toList.dropWhile Char.isWhitespace).reverse.dropWhile Char.isWhitespace).reverse)

/-- splitChars splits a character list at every separator character,
keeping empty pieces, as Python `str.split(sep)` does. -/
def splitChars (p : Char → Bool) : List Char → List (List Char)
  | [] => [[]]
  | c :: cs =>
    if p c then [] :: splitChars p cs
    else
      match splitChars p cs with
      | h :: t => (c :: h) :: t
      | [] => [[c]]

/-- pySplit models Python `str.split(sep)` for a one-character separator. -/
def pySplit (s : String) (p : Char → Bool) : List String :=
  (splitChars p s.toList).map String.mk

/-- score_selector models `_score_selector` from locators.py: the checks
list is walked in order; the `#` and `role=` needles return early on a
prefix match and every needle also matches by containment, then
`nth-child` is checked, then the default class 6. -/
def score_selector (selector : String) : Nat × Nat :=
  let clean := pyStrip selector
  if containsSub clean "data-testid" then (0, clean.length)
  else if startsWithSub clean "role=" || containsSub clean "role=" then (1, clean.length)
  else if startsWithSub clean "#" || containsSub clean "#" then (2, clean.length)
  else if containsSub clean "[name" then (3, clean.length)
  else if containsSub clean "[placeholder" then (4, clean.length)
  else if containsSub clean "text=" then (5, clean.length)
  else if containsSub clean "nth-child" then (9, clean.length)
  else (6, clean.length)

/-- selLe is the comparison Python `sorted(key=_score_selector)` sorts by:
the `(priority, length)` pairs compared lexicographically. -/
def selLe (a b : String) : Prop :=
  (score_selector a).1 < (score_selector b).1 ∨
    ((score_selector a).1 = (score_selector b).1 ∧ (score_selector a).2 ≤ (score_selector b).2)

instance : DecidableRel selLe := fun a b => by unfold selLe; infer_instance

instance : IsTotal String selLe :=
  ⟨by intro a b; unfold selLe; omega⟩

instance : IsTrans String selLe :=
  ⟨by intro a b c; unfold selLe; omega⟩

/-- locator_candidates from locators.py: split on the pipe, strip each
part, drop empty parts, and sort by `_score_selector`. Python `sorted` is
a stable sort by key, which `List.insertionSort` reproduces exactly. -/
def locator_candidates (raw : String) : List String :=
  List.insertionSort selLe (((pySplit raw (fun c => c = '|')).map pyStrip).filter (fun p => p ≠ ""))

/- ===================== semantic_eval.py ===================== -/

/-- pyLower models Python `str.lower()` (ASCII range; every input the
claims exercise is ASCII). -/
def pyLower (s : String) : String := String.mk (s.toList.map Char.toLower)

/-- pySplitWs models Python `str.split()` with no argument: split on
whitespace runs and drop the empty pieces. -/
def pySplitWs (s : String) : List String :=
  (pySplit s (fun c => c.isWhitespace)).filter (fun p => p ≠ "")

/-- pyFind models Python `str.find`: codepoint index of the first
occurrence, `None` standing for -1. -/
def pyFind (hay needle : String) : Option Nat :=
  (List.range (hay.toList.length + 1)).find? (fun i => needle.toList.isPrefixOf (hay.toList.drop i))

/-- pyReplaceBangSpace models the call `str.replace("!", " ")`: a
one-character pattern and replacement, so a character map. -/
def pyReplaceBangSpace (s : String) : String :=
  String.mk (s.toList.map (fun c => if c = '!' then ' ' else c))

/-- extract_between from semantic_eval.py: slice a `span`-wide window of
`text` centred on the first (case-insensitive) occurrence of `marker`. -/
def extract_between (text marker : String) (span : Nat) : Option String :=
  match pyFind (pyLower text) (pyLower marker) with
  | none => none
  | some idx =>
    let start := idx - span / 2
    let stop := min text.toList.length (idx + span / 2)
    some (String.mk ((text.toList.drop start).take (stop - start)))

/-- heuristic_match from semantic_eval.py, the four ordered checks of
`_heuristic_match`: expectation substring, probe-text substring, the
`#status` selector window, then the first two tokens. The source indexes
`expectation_lower.split()[0]`, which raises on an all-whitespace
expectation; `semantic_match` strips and rejects empty expectations first,
so that branch is modelled as a non-match. -/
def heuristic_match (page_text expectation : String) (selector probe_text : Option String) : Bool :=
  let expectation_lower := pyLower expectation
  let page_lower := pyLower page_text
  if !expectation_lower.toList.isEmpty && containsSub page_lower expectation_lower then true
  else if (match probe_text with
           | some p => !p.toList.isEmpty && containsSub page_lower (pyLower p)
           | none => false) then true
  else if (match selector with
           | some s => !s.toList.isEmpty && containsSub s "#status"
           | none => false) &&
          (match extract_between page_text "status" 200 with
           | some frag =>
             !frag.toList.isEmpty &&
               (match (pySplitWs expectation_lower).head? with
                | some tok => containsSub (pyLower frag) tok
                | none => false)
           | none => false) then true
  else
    ((pySplitWs (pyReplaceBangSpace expectation_lower)).take 2).all
      (fun token => containsSub page_lower token)

/-- semantic_match from semantic_eval.py. The external language model is
an injected capability: `some model` stands for a configured, reachable
model, and its answer `some b` for a response starting with yes or no;
`none` covers any other response and any exception, both of which fall
through to the local heuristic. `_get_model()` returning `None` (no
library or no API key) is the `none` comparator. -/
def semantic_match (comparator : Option (String → String → Option Bool))
    (page_text expectation : String) (selector probe_text : Option String) : Bool :=
  let exp2 := pyStrip expectation
  if exp2.toList.isEmpty then false
  else
    match comparator with
    | some model =>
      match model exp2 (String.mk (page_text.toList.take 4000)) with
      | some b => b
      | none => heuristic_match page_text exp2 selector probe_text
    | none => heuristic_match page_text exp2 selector probe_text

/- ===================== oracle.py ===================== -/

/-- PwErr models the Playwright exception classes a locator wait can
raise. Neither is a subclass of the repo exception `OracleError`. -/
inductive PwErr where
  | timeout (msg : String)
  | other (msg : String)
deriving Repr, DecidableEq

/-- pwRaise injects a Playwright exception into the engine error type;
note that no Playwright exception maps to `ExErr.oracleError`. -/
def pwRaise : PwErr → ExErr
  | .timeout m => .pwTimeoutError m
  | .other m => .pwOtherError m

/-- SeePage abstracts the page handle operations the `see` step uses:
the outcome of `page.get_by_text(text).wait_for(state=visible, timeout)`
and the text of `page.inner_text(body)`. -/
structure SeePage where
  waitForTextVisible : Value → Nat → Option PwErr
  bodyText : String

/-- see_text from oracle.py: a bare locator wait; on failure it lets the
Playwright exception through unchanged (it never raises `OracleError`). -/
def see_text (page : SeePage) (text : Value) (timeout_ms : Nat) : Except ExErr Unit :=
  match page.waitForTextVisible text timeout_ms with
  | none => .ok ()
  | some e => .error (pwRaise e)

/- ===================== runner.py : see step ===================== -/

/-- pyTruthy models Python truthiness of a value. -/
def pyTruthy : Value → Bool
  | .vNull => false
  | .vBool b => b
  | .vInt n => decide (n ≠ 0)
  | .vStr s => !s.toList.isEmpty
  | .vList items => !items.isEmpty
  | .vDict entries => !entries.isEmpty

/-- pyOrV models the Python `or` operator: the left value when truthy,
otherwise the right value. -/
def pyOrV (a b : Value) : Value := if pyTruthy a then a else b

/-- pyGet models `d.get(k)`: the stored value, or None when absent. -/
def pyGet (m : List (String × Value)) (k : String) : Value :=
  match listLookup m k with
  | some v => v
  | none => .vNull

/-- optStr projects an optional payload entry to the string the oracle
helpers receive; a non-string entry would raise inside the source helpers
and is not exercised by any claim. -/
def optStr : Option Value → Option String
  | some (.vStr s) => some s
  | _ => none

/-- SeePayload models the payload of a `see` step: a bare string, a
mapping, or anything else (which the source rejects). -/
inductive SeePayload where
  | str (s : String)
  | map (entries : List (String × Value))
  | other

/-- execute_see models the `see` branch of `ScenarioRunner._execute`
verbatim: resolve `text` and `meaning` from the payload, try the literal
`see_text` wait first, catch ONLY `OracleError` from it, then run the
semantic fallback on `meaning or text`. A non-string expectation would
raise `AttributeError` inside `semantic_match` and is modelled as a
runtime error. -/
def execute_see (page : SeePage) (comparator : Option (String → String → Option Bool))
    (timeout_default : Nat) (payload : SeePayload) : Except ExErr Unit :=
  match payload with
  | .other => .error (.runtimeError "see step expects string or mapping")
  | _ =>
    let text_target : Value := match payload with
      | .str s => .vStr s
      | .map m => pyGet m "text"
      | .other => .vNull
    let meaning : Value := match payload with
      | .map m => pyOrV (pyGet m "meaning") (pyOrV (pyGet m "expected") (pyGet m "description"))
      | _ => .vNull
    let fallback (last_error : Option ExErr) : Except ExErr Unit :=
      let expectation := pyOrV meaning text_target
      if pyTruthy expectation then
        match expectation with
        | .vStr exps =>
          let selector_hint := match payload with
            | .map m => optStr (listLookup m "selector")
            | _ => none
          let probe_text := match payload with
            | .map m => optStr (listLookup m "text")
            | _ => none
          if semantic_match comparator page.bodyText exps selector_hint probe_text then .ok ()
          else .error (.runtimeError ("Semantic expectation not met: " ++ exps))
        | _ => .error (.runtimeError "expectation is not a string")
      else
        match last_error with
        | some e => .error e
        | none => .error (.runtimeError "see step missing expectation")
    if pyTruthy text_target then
      match see_text page text_target timeout_default with
      | .ok () => .ok ()
      | .error (.oracleError m) => fallback (some (.oracleError m))
      | .error e => .error e
    else fallback none

/- ===================== runner.py : run loop ===================== -/

/-- AttemptOutcome is the observable behaviour of one `_execute` call:
whether it returned, the exception text when it threw, and the elapsed
milliseconds the perf_counter clock advances by. -/
structure AttemptOutcome where
  ok : Bool
  err : String
  dur : Nat

/-- StepEnv bundles the external behaviour the run loop consults:
`exec step_index attempt` is the outcome of `_execute` on that attempt,
`capture` is `_capture_failure` (screenshot path) and `collect` is
`_collect_context`. -/
structure StepEnv where
  exec : Nat → Nat → AttemptOutcome
  capture : Nat → String
  collect : String → Option String

/-- StepResult mirrors the dataclass from reporting.py as the run loop
fills it. -/
structure StepResult where
  index : Nat
  action : String
  payload : Value
  status : String
  duration_ms : Nat
  error : Option String
  screenshot : Option String
  context : Option String

/-- stepAttemptsAux models the `for attempt in range(1, step_retries+1)`
loop of `ScenarioRunner.run` for one step. `remaining` counts the
iterations still allowed (`step_retries - attempt + 1`), so the source
guard `attempt >= step_retries` is `remaining <= 1`; `clock` is the
perf_counter value and `started_at` is its value at the head of each
iteration, so the recorded duration covers only that attempt. Returns the
single StepResult recorded for the step, the new clock and the success
flag. -/
def stepAttemptsAux (env : StepEnv) (index : Nat) (action : String) (payload : Value) :
    Nat → Nat → Nat → StepResult × Nat × Bool
  | remaining, attempt, clock =>
    let o := env.exec index attempt
    let clock2 := clock + o.dur
    if o.ok then
      ({ index := index, action := action, payload := payload, status := "passed",
         duration_ms := clock2 - clock, error := none, screenshot := none, context := none },
       clock2, true)
    else
      match remaining with
      | r + 2 => stepAttemptsAux env index action payload (r + 1) (attempt + 1) clock2
      | _ =>
        ({ index := index, action := action, payload := payload, status := "failed",
           duration_ms := clock2 - clock, error := some o.err,
           screenshot := some (env.capture index), context := env.collect action },
         clock2, false)

/-- runFlowAux models the step loop of `ScenarioRunner.run`: steps are
numbered from 1, each yields exactly one StepResult, a final-attempt
failure sets the run status to failed and breaks out of the loop. -/
def runFlowAux (env : StepEnv) (retries : Nat) :
    List (String × Value) → Nat → Nat → String → List StepResult × String
  | [], _, _, status => ([], status)
  | (action, payload) :: rest, index, clock, status =>
    let r := stepAttemptsAux env index action payload retries 1 clock
    if r.2.2 then
      let rec2 := runFlowAux env retries rest (index + 1) r.2.1 status
      (r.1 :: rec2.1, rec2.2)
    else
      ([r.1], "failed")

/-- run_scenario models `ScenarioRunner.run` (report writing is external):
`step_retries = max(1, settings.retry.step)`, steps enumerated from 1,
initial status passed. -/
def run_scenario (env : StepEnv) (retry_step : Nat) (flow : List (String × Value)) :
    List StepResult × String :=
  runFlowAux env (max 1 retry_step) flow 1 0 "passed"

/- ===================== runner.py : _navigate ===================== -/

/-- UrlLib abstracts `urllib.parse.urljoin` and `urlparse(...).hostname`,
external library calls. -/
structure UrlLib where
  urljoin : String → String → String
  hostname : String → Option String

/-- NavSettings is the slice of `Settings` that `_navigate` reads. -/
structure NavSettings where
  base_url : String
  allowed_hosts : List String
  timeout_default : Nat

/-- PageCall records a call issued to the page handle. -/
inductive PageCall where
  | goto (url : String) (waitUntil : String) (timeoutMs : Nat)
deriving Repr, DecidableEq

/-- optHostname renders an optional hostname the way a Python f-string
renders `parsed.hostname`. -/
def optHostname : Option String → String
  | some h => h
  | none => "None"

/-- navigate models `ScenarioRunner._navigate`: join the path to the base
URL, parse the host, raise before any page call when the host is not
allowed, otherwise issue the single `goto`. Returns the list of page
calls issued together with the raised error, if any. -/
def navigate (lib : UrlLib) (settings : NavSettings) (path : String) :
    List PageCall × Option ExErr :=
  let target := lib.urljoin settings.base_url path
  let host := lib.hostname target
  if (match host with
      | some h => settings.allowed_hosts.contains h
      | none => false) then
    ([PageCall.goto target "domcontentloaded" settings.timeout_default], none)
  else
    ([], some (.runtimeError ("Blocked navigation to host " ++ optHostname host)))

/- ===================== theorems: dict helpers ===================== -/

theorem listLookup_insert_self (l : List (String × Value)) (k : String) (v : Value) :
    listLookup (listInsert l k v) k = some v := by
  induction l with
  | nil => simp [listInsert, listLookup]
  | cons hd tl ih =>
    obtain ⟨k0, v0⟩ := hd
    by_cases h : k0 = k
    · subst h; simp [listInsert, listLookup]
    · simp [listInsert, listLookup, h, ih]

theorem listLookup_insert_ne (l : List (String × Value)) {k k2 : String} (h : k2 ≠ k) (v : Value) :
    listLookup (listInsert l k2 v) k = listLookup l k := by
  induction l with
  | nil => simp [listInsert, listLookup, h]
  | cons hd tl ih =>
    obtain ⟨k0, v0⟩ := hd
    by_cases h0 : k0 = k2
    · subst h0; simp [listInsert, listLookup, h]
    · simp [listInsert, listLookup, h0, ih]

theorem listLookup_eq_none (l : List (String × Value)) (k : String) :
    k ∉ dictKeys l ↔ listLookup l k = none := by
  induction l with
  | nil => simp [dictKeys, listLookup]
  | cons hd tl ih =>
    obtain ⟨k0, v0⟩ := hd
    by_cases h0 : k0 = k
    · subst h0; simp [dictKeys, listLookup]
    · have e1 : listLookup ((k0, v0) :: tl) k = listLookup tl k := by
        simp [listLookup, h0]
      have e2 : dictKeys ((k0, v0) :: tl) = k0 :: dictKeys tl := rfl
      rw [e1, e2]
      constructor
      · intro h
        exact ih.mp (fun hm => h (List.mem_cons_of_mem _ hm))
      · intro h hm
        rcases List.mem_cons.mp hm with h1 | h1
        · exact h0 h1.symm
        · exact (ih.mpr h) h1

theorem deep_merge_cons_nondict (result : List (String × Value)) (key : String) (value : Value)
    (tl : List (String × Value)) (h : ∀ o, value ≠ Value.vDict o) :
    deep_merge result ((key, value) :: tl) = deep_merge (listInsert result key value) tl := by
  rw [deep_merge]
  exact fun o ho => h o ho

theorem deep_merge_cons_dict (result : List (String × Value)) (key : String) (od tl : List (String × Value)) :
    deep_merge result ((key, Value.vDict od) :: tl) =
      match listLookup result key with
      | some (Value.vDict b) => deep_merge (listInsert result key (Value.vDict (deep_merge b od))) tl
      | _ => deep_merge (listInsert result key (Value.vDict od)) tl := by
  rw [deep_merge]

theorem deep_merge_lookup_not_mem :
    ∀ (o result : List (String × Value)) (k : String), k ∉ dictKeys o →
      listLookup (deep_merge result o) k = listLookup result k := by
  intro o
  induction o with
  | nil => intro result k _; simp [deep_merge]
  | cons hd tl ih =>
    intro result k hk
    obtain ⟨key, value⟩ := hd
    have hne : key ≠ k := by
      intro h; exact hk (by simp [dictKeys, h])
    have hk2 : k ∉ dictKeys tl := by
      intro h; exact hk (List.mem_cons_of_mem _ h)
    by_cases hv : ∃ od, value = Value.vDict od
    · obtain ⟨od, rfl⟩ := hv
      rw [deep_merge_cons_dict]
      rcases hl : listLookup result key with _ | w
      · simp only [hl]
        rw [ih _ k hk2, listLookup_insert_ne _ hne]
      · cases w <;> (simp only [hl]; rw [ih _ k hk2, listLookup_insert_ne _ hne])
    · rw [deep_merge_cons_nondict _ _ _ _ (fun o ho => hv ⟨o, ho⟩),
        ih _ k hk2, listLookup_insert_ne _ hne]

theorem deep_merge_lookup_mem :
    ∀ (o result : List (String × Value)) (k : String) (v : Value),
      (dictKeys o).Nodup → listLookup o k = some v →
      listLookup (deep_merge result o) k =
        (match listLookup result k, v with
         | some (.vDict bd), .vDict od => some (.vDict (deep_merge bd od))
         | _, _ => some v) := by
  intro o
  induction o with
  | nil => intro result k v _ hv; simp [listLookup] at hv
  | cons hd tl ih =>
    intro result k v hnd hv
    obtain ⟨key, value⟩ := hd
    have hnd2 : (dictKeys tl).Nodup := (List.nodup_cons.mp hnd).2
    by_cases hk : key = k
    · subst hk
      have hv2 : v = value := by
        simp [listLookup] at hv; exact hv.symm
      subst hv2
      have hmem : key ∉ dictKeys tl := (List.nodup_cons.mp hnd).1
      by_cases hdict : ∃ od, v = Value.vDict od
      · obtain ⟨od, rfl⟩ := hdict
        rw [deep_merge_cons_dict]
        rcases hl : listLookup result key with _ | w
        · simp only [hl]
          rw [deep_merge_lookup_not_mem tl _ key hmem, listLookup_insert_self]
        · cases w <;>
            (simp only [hl]
             rw [deep_merge_lookup_not_mem tl _ key hmem, listLookup_insert_self])
      · rw [deep_merge_cons_nondict _ _ _ _ (fun o ho => hdict ⟨o, ho⟩),
          deep_merge_lookup_not_mem tl _ key hmem, listLookup_insert_self]
        rcases listLookup result key with _ | w
        · cases v <;> simp_all
        · cases w <;> cases v <;> simp_all
    · have hv2 : listLookup tl k = some v := by
        simpa [listLookup, hk] using hv
      have hne : key ≠ k := hk
      by_cases hdict : ∃ od, value = Value.vDict od
      · obtain ⟨od, rfl⟩ := hdict
        rw [deep_merge_cons_dict]
        rcases hl : listLookup result key with _ | w
        · simp only [hl]
          rw [ih _ k v hnd2 hv2, listLookup_insert_ne _ hne]
        · cases w <;>
            (simp only [hl]
             rw [ih _ k v hnd2 hv2, listLookup_insert_ne _ hne])
      · rw [deep_merge_cons_nondict _ _ _ _ (fun o ho => hdict ⟨o, ho⟩),
          ih _ k v hnd2 hv2, listLookup_insert_ne _ hne]

/-- C6: for all mappings `base` and `override` (keys of a Python dict are
unique, hence the Nodup hypothesis), `deep_merge` merges recursively when
both sides hold a mapping at a key and otherwise the override binding
replaces the base binding entirely, a mapping replacing a scalar and vice
versa included; `merge({a:{x:1}}, {a:{y:2}}) = {a:{x:1,y:2}}` and
`merge({a:1}, {a:{b:2}}) = {a:{b:2}}`. -/
theorem deep_merge_spec :
    (∀ (base override : List (String × Value)) (k : String),
      (dictKeys override).Nodup →
      listLookup (deep_merge base override) k =
        (match listLookup override k with
         | none => listLookup base k
         | some v =>
           match listLookup base k, v with
           | some (.vDict bd), .vDict od => some (.vDict (deep_merge bd od))
           | _, _ => some v)) ∧
    deep_merge [("a", .vDict [("x", .vInt 1)])] [("a", .vDict [("y", .vInt 2)])]
      = [("a", .vDict [("x", .vInt 1), ("y", .vInt 2)])] ∧
    deep_merge [("a", .vInt 1)] [("a", .vDict [("b", .vInt 2)])]
      = [("a", .vDict [("b", .vInt 2)])] := by
  refine ⟨?_, ?_, ?_⟩
  · intro base override k hnd
    rcases ho : listLookup override k with _ | v
    · simp only [ho]
      exact deep_merge_lookup_not_mem override base k ((listLookup_eq_none override k).mpr ho)
    · simp only [ho]
      exact deep_merge_lookup_mem override base k v hnd ho
  · simp [deep_merge, listLookup, listInsert]
  · simp [deep_merge, listLookup, listInsert]

/-- C7: locator candidates are the pipe-separated, whitespace-trimmed
parts, reordered into ascending `(priority, length)` order (`selLe` is
exactly the comparison of the `_score_selector` key pairs), so within one
priority class shorter candidates come first; in particular
`sortCandidates("#a|text=b|.c") = ["#a", "text=b", ".c"]`. -/
theorem locator_candidates_sorted :
    (∀ raw : String, (locator_candidates raw).Sorted selLe) ∧
    (∀ raw : String,
      (locator_candidates raw).Perm
        (((pySplit raw (fun c => c = '|')).map pyStrip).filter (fun p => p ≠ ""))) ∧
    locator_candidates "#a|text=b|.c" = ["#a", "text=b", ".c"] := by
  refine ⟨?_, ?_, by decide⟩
  · intro raw
    exact List.sorted_insertionSort selLe _
  · intro raw
    exact List.perm_insertionSort selLe _

/-- C8 counterexample: `"#a:nth-child(2)"` contains `nth-child` but the
checks list matches the `#` needle first, so its priority is 2, not 9. -/
theorem score_selector_nth_child_counterexample :
    score_selector "#a:nth-child(2)" = (2, 15) ∧ (score_selector "#a:nth-child(2)").1 ≠ 9 := by
  decide

theorem contains_false_startsWith_false (s pre : String) (h : containsSub s pre = false) :
    startsWithSub s pre = false := by
  by_contra hb
  have hb2 : startsWithSub s pre = true := by
    cases h2 : startsWithSub s pre
    · exact absurd h2 hb
    · rfl
  have : containsSub s pre = true := by
    unfold containsSub
    rw [List.any_eq_true]
    refine ⟨0, ?_, ?_⟩
    · rw [List.mem_range]; omega
    · simpa [startsWithSub] using hb2
  rw [h] at this
  exact Bool.false_ne_true this

/-- C8 amended: a candidate containing `nth-child` is scored 9 (after
every other priority class) provided none of the earlier needles of the
checks list matches it (no `data-testid`, `role=`, `#`, `[name`,
`[placeholder` or `text=` substring). -/
theorem score_selector_nth_child (s : String)
    (h1 : containsSub (pyStrip s) "nth-child" = true)
    (h2 : containsSub (pyStrip s) "data-testid" = false)
    (h3 : containsSub (pyStrip s) "role=" = false)
    (h4 : containsSub (pyStrip s) "#" = false)
    (h5 : containsSub (pyStrip s) "[name" = false)
    (h6 : containsSub (pyStrip s) "[placeholder" = false)
    (h7 : containsSub (pyStrip s) "text=" = false) :
    score_selector s = (9, (pyStrip s).length) := by
  have h3b := contains_false_startsWith_false _ _ h3
  have h4b := contains_false_startsWith_false _ _ h4
  simp [score_selector, h1, h2, h3, h4, h5, h6, h7, h3b, h4b]

theorem score_selector_nth_child_witness : score_selector "li:nth-child(2)" = (9, 15) :=
  score_selector_nth_child "li:nth-child(2)" (by decide) (by decide) (by decide) (by decide)
    (by decide) (by decide) (by decide)

/-- C9: whenever the path joined to the base URL parses to a host that is
not a member of the allowed-hosts list (a missing host included), the
navigate step raises the blocked-host error, the one the design calls
NavigationPolicyError, and issues no call at all to the page handle. -/
theorem navigate_blocked (lib : UrlLib) (settings : NavSettings) (path : String)
    (h : (match lib.hostname (lib.urljoin settings.base_url path) with
          | some h => settings.allowed_hosts.contains h
          | none => false) = false) :
    navigate lib settings path =
      ([], some (.runtimeError ("Blocked navigation to host "
        ++ optHostname (lib.hostname (lib.urljoin settings.base_url path))))) := by
  simp only [navigate, h]
  rw [if_neg]
  simp

theorem navigate_blocked_witness :
    navigate { urljoin := fun _ p => p, hostname := fun s => some s }
      { base_url := "http://allowed.example", allowed_hosts := ["allowed.example"],
        timeout_default := 8000 }
      "evil.example"
      = ([], some (.runtimeError "Blocked navigation to host evil.example")) := by
  rw [navigate_blocked _ _ _ (by decide)]
  rfl

/-- C10: the heuristic oracle can report a match although the expectation
is not a substring of the page text, there is no probe text, and the
first two expectation tokens do not all occur in the page: with selector
hint `#status`, page text `Current status: ready` and expectation
`ready confirmed`, the first token `ready` occurs inside the 200-character
window around the first `status` occurrence, so the heuristic succeeds. -/
theorem heuristic_status_window :
    heuristic_match "Current status: ready" "ready confirmed" (some "#status") none = true ∧
    containsSub (pyLower "Current status: ready") (pyLower "ready confirmed") = false ∧
    (((pySplitWs (pyReplaceBangSpace (pyLower "ready confirmed"))).take 2).all
      (fun t => containsSub (pyLower "Current status: ready") t)) = false ∧
    extract_between "Current status: ready" "status" 200 = some "Current status: ready" ∧
    containsSub "#status" "#status" = true := by
  decide

/-- C1: a `see` step whose literal `text` wait times out does NOT proceed
to the semantic fallback: `see_text` raises the Playwright timeout error,
the runner catches only `OracleError`, so the timeout propagates out of
the step, although the fallback (here the heuristic on
`payload.meaning`) would have accepted the page. -/
theorem see_literal_timeout_propagates :
    execute_see
      { waitForTextVisible := fun _ _ => some (.timeout "Timeout 8000ms exceeded"),
        bodyText := "Login succeeded - welcome back" }
      none 8000
      (.map [("text", .vStr "Welcome!"), ("meaning", .vStr "login succeeded")])
      = .error (.pwTimeoutError "Timeout 8000ms exceeded") ∧
    semantic_match none "Login succeeded - welcome back" "login succeeded"
      none (some "Welcome!") = true :=
  ⟨rfl, by decide⟩

/- ===================== theorems: run loop ===================== -/

theorem stepAttemptsAux_basic (env : StepEnv) (index : Nat) (action : String) (payload : Value) :
    ∀ (remaining attempt clock : Nat),
      (stepAttemptsAux env index action payload remaining attempt clock).1.index = index ∧
      (stepAttemptsAux env index action payload remaining attempt clock).1.action = action ∧
      (stepAttemptsAux env index action payload remaining attempt clock).1.status =
        (if (stepAttemptsAux env index action payload remaining attempt clock).2.2
         then "passed" else "failed") := by
  intro remaining
  induction remaining with
  | zero =>
    intro attempt clock
    rw [stepAttemptsAux.eq_def]
    by_cases h : (env.exec index attempt).ok <;> simp [h]
  | succ r ih =>
    intro attempt clock
    rw [stepAttemptsAux.eq_def]
    by_cases h : (env.exec index attempt).ok
    · simp [h]
    · cases r with
      | zero => simp [h]
      | succ r2 =>
        simpa [h] using ih (attempt + 1) (clock + (env.exec index attempt).dur)

theorem runFlowAux_spec (env : StepEnv) (retries : Nat) :
    ∀ (flow : List (String × Value)) (index clock : Nat) (status : String),
      ((runFlowAux env retries flow index clock status).1.map (fun r => r.action) =
        (flow.map Prod.fst).take (runFlowAux env retries flow index clock status).1.length) ∧
      ((runFlowAux env retries flow index clock status).1.map (fun r => r.index) =
        List.range' index (runFlowAux env retries flow index clock status).1.length) ∧
      (((runFlowAux env retries flow index clock status).2 = status ∧
        (runFlowAux env retries flow index clock status).1.map (fun r => r.status) =
          List.replicate flow.length "passed") ∨
       ((runFlowAux env retries flow index clock status).2 = "failed" ∧
        ∃ k, k < flow.length ∧
          (runFlowAux env retries flow index clock status).1.map (fun r => r.status) =
            List.replicate k "passed" ++ ["failed"])) := by
  intro flow
  induction flow with
  | nil =>
    intro index clock status
    simp [runFlowAux]
  | cons hd tl ih =>
    intro index clock status
    obtain ⟨action, payload⟩ := hd
    obtain ⟨hbi, hba, hbs⟩ := stepAttemptsAux_basic env index action payload retries 1 clock
    rw [runFlowAux.eq_def]
    by_cases hs : (stepAttemptsAux env index action payload retries 1 clock).2.2 = true
    · rw [hs] at hbs
      simp only [hs, if_true]
      obtain ⟨ih1, ih2, ih3⟩ :=
        ih (index + 1) (stepAttemptsAux env index action payload retries 1 clock).2.1 status
      refine ⟨?_, ?_, ?_⟩
      · simp only [List.map_cons, List.length_cons, List.take_succ_cons, hba, ih1]
      · simp only [List.map_cons, List.length_cons, List.range'_succ, hbi, ih2]
      · rcases ih3 with ⟨hf, hm⟩ | ⟨hf, k, hk, hm⟩
        · left
          refine ⟨hf, ?_⟩
          simp only [List.map_cons, List.length_cons, List.replicate_succ, hbs, hm]
          simp
        · right
          refine ⟨hf, k + 1, by simp; omega, ?_⟩
          simp only [List.map_cons, List.replicate_succ, hbs, hm]
          simp
    · have hs2 : (stepAttemptsAux env index action payload retries 1 clock).2.2 = false := by
        cases h2 : (stepAttemptsAux env index action payload retries 1 clock).2.2
        · rfl
        · exact absurd h2 hs
      rw [hs2] at hbs
      simp only [hs2, Bool.false_eq_true, if_false]
      refine ⟨?_, ?_, ?_⟩
      · simp [hba]
      · simp [hbi]
      · right
        exact ⟨by trivial, 0, by simp, by simp [hbs]⟩

/-- envFail3 drives a run whose step 3 throws on every attempt and every
other step succeeds at once. -/
def envFail3 : StepEnv :=
  { exec := fun index _ =>
      if index = 3 then { ok := false, err := "locator timeout", dur := 10 }
      else { ok := true, err := "", dur := 5 },
    capture := fun index => "artifacts/failure_" ++ toString index ++ ".png",
    collect := fun _ => none }

/-- flow5 is a five-step flow. -/
def flow5 : List (String × Value) :=
  [("go", .vStr "/"), ("click", .vStr "#a"), ("see", .vStr "Welcome"),
   ("click", .vStr "#b"), ("see", .vStr "Done")]

/-- C2: a run's StepResults line up one-to-one with a prefix of the flow
(indices 1..k, actions matching), every recorded status before a failure
is passed, and the final status is failed exactly when a step failed and
is then the status of the last recorded step with nothing after it; a
5-step flow whose 3rd step exhausts its retries yields exactly 3
StepResults (steps 4 and 5 never attempted) and overall status failed. -/
theorem run_fail_fast :
    (∀ (env : StepEnv) (retry : Nat) (flow : List (String × Value)),
      ((run_scenario env retry flow).1.map (fun r => r.action) =
        (flow.map Prod.fst).take (run_scenario env retry flow).1.length) ∧
      ((run_scenario env retry flow).1.map (fun r => r.index) =
        List.range' 1 (run_scenario env retry flow).1.length) ∧
      (((run_scenario env retry flow).2 = "passed" ∧
        (run_scenario env retry flow).1.map (fun r => r.status) =
          List.replicate flow.length "passed") ∨
       ((run_scenario env retry flow).2 = "failed" ∧
        ∃ k, k < flow.length ∧
          (run_scenario env retry flow).1.map (fun r => r.status) =
            List.replicate k "passed" ++ ["failed"]))) ∧
    (run_scenario envFail3 2 flow5).1.length = 3 ∧
    (run_scenario envFail3 2 flow5).2 = "failed" ∧
    (run_scenario envFail3 2 flow5).1.map (fun r => r.status) =
      ["passed", "passed", "failed"] := by
  refine ⟨?_, by rfl, by rfl, by rfl⟩
  intro env retry flow
  exact runFlowAux_spec env (max 1 retry) flow 1 0 "passed"

theorem stepAttempts_first_success (env : StepEnv) (index : Nat) (action : String)
    (payload : Value) :
    ∀ (d remaining attempt clock : Nat),
      d < remaining →
      (∀ a, attempt ≤ a → a < attempt + d → (env.exec index a).ok = false) →
      (env.exec index (attempt + d)).ok = true →
      ((stepAttemptsAux env index action payload remaining attempt clock).1.status = "passed" ∧
       (stepAttemptsAux env index action payload remaining attempt clock).1.duration_ms =
         (env.exec index (attempt + d)).dur ∧
       (stepAttemptsAux env index action payload remaining attempt clock).2.2 = true) := by
  intro d
  induction d with
  | zero =>
    intro remaining attempt clock _ _ hok
    rw [Nat.add_zero] at hok ⊢
    rw [stepAttemptsAux.eq_def]
    simp [hok]
  | succ d ih =>
    intro remaining attempt clock hlt hfail hok
    have hnot : (env.exec index attempt).ok = false :=
      hfail attempt (le_refl _) (by omega)
    match remaining, hlt with
    | r + 2, _ =>
      rw [stepAttemptsAux.eq_def]
      simp only [hnot, Bool.false_eq_true, if_false]
      have e : attempt + 1 + d = attempt + (d + 1) := by omega
      have hfail2 : ∀ a, attempt + 1 ≤ a → a < attempt + 1 + d → (env.exec index a).ok = false := by
        intro a h1 h2
        exact hfail a (by omega) (by omega)
      have hok2 : (env.exec index (attempt + 1 + d)).ok = true := by rw [e]; exact hok
      have h3 := ih (r + 1) (attempt + 1) (clock + (env.exec index attempt).dur)
        (by omega) hfail2 hok2
      rw [e] at h3
      exact h3

/-- envFlaky drives a step that throws on attempt 1 (50 ms) and succeeds
on attempt 2 (7 ms). -/
def envFlaky : StepEnv :=
  { exec := fun _ attempt =>
      if attempt = 1 then { ok := false, err := "flaky", dur := 50 }
      else { ok := true, err := "", dur := 7 },
    capture := fun index => "artifacts/failure_" ++ toString index ++ ".png",
    collect := fun _ => none }

/-- C3: in the per-step retry loop, if attempts 1..j-1 all throw and
attempt j (within the retry budget) completes, the step ends passed with a
single StepResult whose duration is the duration of attempt j alone
(started_at is reset at the head of every attempt); concretely, with
stepRetries = 2 and an action that throws once (50 ms) then succeeds
(7 ms), the run records exactly one passed StepResult with
durationMs = 7. -/
theorem step_retry_duration :
    (∀ (env : StepEnv) (index : Nat) (action : String) (payload : Value)
       (j retries clock : Nat),
      1 ≤ j → j ≤ retries →
      (∀ a, 1 ≤ a → a < j → (env.exec index a).ok = false) →
      (env.exec index j).ok = true →
      ((stepAttemptsAux env index action payload retries 1 clock).1.status = "passed" ∧
       (stepAttemptsAux env index action payload retries 1 clock).1.duration_ms =
         (env.exec index j).dur ∧
       (stepAttemptsAux env index action payload retries 1 clock).2.2 = true)) ∧
    run_scenario envFlaky 2 [("click", .vStr "#a")] =
      ([{ index := 1, action := "click", payload := .vStr "#a", status := "passed",
          duration_ms := 7, error := none, screenshot := none, context := none }], "passed") := by
  refine ⟨?_, by rfl⟩
  intro env index action payload j retries clock h1 h2 hfail hok
  have e : 1 + (j - 1) = j := by omega
  have hfail2 : ∀ a, 1 ≤ a → a < 1 + (j - 1) → (env.exec index a).ok = false := by
    intro a ha1 ha2
    exact hfail a ha1 (by omega)
  have hok2 : (env.exec index (1 + (j - 1))).ok = true := by rw [e]; exact hok
  have h3 := stepAttempts_first_success env index action payload (j - 1) retries 1 clock
    (by omega) hfail2 hok2
  rw [e] at h3
  exact h3

/-- rawC4 is a scenario document whose meta holds an env token and whose
flow holds a string with two occurrences of the same token. -/
def rawC4 : List (String × Value) :=
  [("meta", .vDict [("title", .vStr "$env.a")]),
   ("env", .vDict [("a", .vStr "x")]),
   ("flow", .vList [.vDict [("go", .vStr "$env.a-$env.a")]])]

/-- scnC4 is what `load_scenario` produces for `rawC4`: the flow string is
interpolated at both occurrences, the meta string is left untouched. -/
def scnC4 : Scenario :=
  { meta := [("title", .vStr "$env.a")],
    env := [("a", .vStr "x")],
    flow := [.vDict [("go", .vStr "x-x")]] }

theorem load_rawC4_eval : load_scenario rawC4 none = .ok scnC4 := by
  simp [load_scenario, rawC4, scnC4, listLookup, deep_merge, resolve_flow, resolve_items,
    resolve_value, resolve_entries, interpolateStr, interpolate, parseSegs, isTokenChar,
    List.takeWhile, List.dropWhile, pyStr, listInsert, tokenText, extract_env_value]

/-- C4 counterexample: loading `rawC4` interpolates the flow string (both
occurrences become `x`) but returns `meta` with the raw token `$env.a`
still in place, although interpolating that string under the merged env
would give `x`; so scenario loading does NOT interpolate the string
scalars of `meta`. -/
theorem load_scenario_meta_counterexample :
    load_scenario rawC4 none = .ok scnC4 ∧
    scnC4.meta = [("title", .vStr "$env.a")] ∧
    scnC4.meta ≠ [("title", .vStr "x")] ∧
    interpolateStr scnC4.env "$env.a" = .ok "x" := by
  refine ⟨load_rawC4_eval, rfl, by simp [scnC4], ?_⟩
  simp [scnC4, interpolateStr, interpolate, parseSegs, isTokenChar,
    List.takeWhile, List.dropWhile, pyStr, tokenText, extract_env_value, listLookup]

/-- C4 amended: scenario loading interpolates every string scalar of the
`flow` (each token occurrence, several per string included, replaced by
the stringified merged-env value) before execution begins, while `meta` is
returned without interpolation, exactly as found in the document. -/
theorem load_scenario_interpolates_flow_only :
    (∀ (raw : List (String × Value)) (base : Option (List (String × Value))) (scn : Scenario),
      load_scenario raw base = .ok scn →
      ((match listLookup raw "meta" with
        | none => some ([] : List (String × Value))
        | some (.vDict m) => some m
        | some _ => none) = some scn.meta ∧
       (∃ fl, listLookup raw "flow" = some (.vList fl) ∧
          resolve_flow scn.env fl = .ok scn.flow))) ∧
    load_scenario rawC4 none = .ok scnC4 := by
  refine ⟨?_, load_rawC4_eval⟩
  intro raw base scn h
  unfold load_scenario at h
  by_cases hf : (listLookup raw "flow").isNone
  · simp [hf] at h
  · simp only [hf, Bool.false_eq_true, if_false] at h
    split at h
    · exact absurd h (by simp)
    · next meta hmeta =>
      split at h
      · exact absurd h (by simp)
      · next envDoc henv =>
        split at h
        · next fl hfl =>
          split at h
          · next flow2 hres =>
            have hscn := Except.ok.inj h
            subst hscn
            exact ⟨hmeta, fl, hfl, hres⟩
          · exact absurd h (by simp)
        · exact absurd h (by simp)

/- ===================== theorems: interpolation ===================== -/

/-- tokenChars renders the character sequence of a token body
`.seg1.seg2...` from its segments. -/
def tokenChars (segs : List String) : List Char :=
  (segs.map (fun s => '.' :: s.toList)).flatten

/-- wfSegs states that every segment is a nonempty run of token
characters, which is what `TOKEN_PATTERN` matches. -/
def wfSegs (segs : List String) : Prop :=
  ∀ s ∈ segs, s.toList ≠ [] ∧ ∀ c ∈ s.toList, isTokenChar c = true

theorem takeWhile_append_all (l r : List Char) (h : ∀ c ∈ l, isTokenChar c = true) :
    (l ++ r).takeWhile isTokenChar = l ++ r.takeWhile isTokenChar := by
  induction l with
  | nil => simp
  | cons c cs ih =>
    have hc := h c (by simp)
    simp only [List.cons_append, List.takeWhile_cons, hc]
    rw [ih (fun d hd => h d (by simp [hd]))]
    simp

theorem dropWhile_append_all (l r : List Char) (h : ∀ c ∈ l, isTokenChar c = true) :
    (l ++ r).dropWhile isTokenChar = r.dropWhile isTokenChar := by
  induction l with
  | nil => simp
  | cons c cs ih =>
    have hc := h c (by simp)
    simp only [List.cons_append, List.dropWhile_cons, hc]
    rw [ih (fun d hd => h d (by simp [hd]))]
    simp

theorem takeWhile_tokenChars (segs : List String) :
    (tokenChars segs).takeWhile isTokenChar = [] := by
  cases segs with
  | nil => simp [tokenChars]
  | cons s rest => simp [tokenChars, List.takeWhile_cons, isTokenChar]

theorem dropWhile_tokenChars (segs : List String) :
    (tokenChars segs).dropWhile isTokenChar = tokenChars segs := by
  cases segs with
  | nil => simp [tokenChars]
  | cons s rest => simp [tokenChars, List.dropWhile_cons, isTokenChar]

theorem parseSegs_tokenChars (segs : List String) (hwf : wfSegs segs) :
    parseSegs (tokenChars segs) = (segs, []) := by
  induction segs with
  | nil => simp [tokenChars, parseSegs]
  | cons seg rest ih =>
    obtain ⟨hne, hch⟩ := hwf seg (by simp)
    have hwf2 : wfSegs rest := fun s hs => hwf s (by simp [hs])
    have hc : tokenChars (seg :: rest) = '.' :: (seg.toList ++ tokenChars rest) := by
      simp [tokenChars]
    rw [hc, parseSegs]
    rw [takeWhile_append_all _ _ hch, takeWhile_tokenChars,
      dropWhile_append_all _ _ hch, dropWhile_tokenChars]
    rw [if_neg (by simp only [List.isEmpty_iff, List.append_nil]; exact hne)]
    rw [ih hwf2]
    simp

/-- C5: interpolating `$env.a.b` against `{a:{b:"x"}}` yields `x`; for
every well-formed token whose dotted path fails to resolve (a segment
missing at the current mapping level, or a non-mapping level), the
substitution raises `ScenarioError` naming the full token — it never
returns a result, so no empty string is ever substituted; shown both for
an arbitrary token standing alone and for the token `$env.a.b` embedded
in surrounding text. -/
theorem interpolate_missing_token :
    interpolateStr [("a", .vDict [("b", .vStr "x")])] "$env.a.b" = .ok "x" ∧
    (∀ (env : List (String × Value)) (segs : List String) (part : String),
      wfSegs segs → segs ≠ [] → extract_env_value segs (.vDict env) = .error part →
      interpolate env ('$' :: 'e' :: 'n' :: 'v' :: tokenChars segs) =
        .error (.scenarioError ("Missing env value for " ++ tokenText segs))) ∧
    (∀ (env : List (String × Value)) (part : String),
      extract_env_value ["a", "b"] (.vDict env) = .error part →
      interpolateStr env "pre $env.a.b post" =
        .error (.scenarioError "Missing env value for $env.a.b")) ∧
    (∀ (env : List (String × Value)) (part : String) (out : String),
      extract_env_value ["a", "b"] (.vDict env) = .error part →
      interpolateStr env "pre $env.a.b post" ≠ .ok out) := by
  have hgen : ∀ (env : List (String × Value)) (segs : List String) (part : String),
      wfSegs segs → segs ≠ [] → extract_env_value segs (.vDict env) = .error part →
      interpolate env ('$' :: 'e' :: 'n' :: 'v' :: tokenChars segs) =
        .error (.scenarioError ("Missing env value for " ++ tokenText segs)) := by
    intro env segs part hwf hne hex
    have hps0 := parseSegs_tokenChars segs hwf
    rw [interpolate]
    have hd : (('e' :: 'n' :: 'v' :: tokenChars segs) : List Char).drop 3 = tokenChars segs := rfl
    have ht : (('e' :: 'n' :: 'v' :: tokenChars segs) : List Char).take 3 =
        ['e', 'n', 'v'] := rfl
    rw [hd, ht, hps0]
    rw [if_pos ⟨rfl, rfl, by simpa using hne⟩]
    simp only [hex]
  have hctx : ∀ (env : List (String × Value)) (part : String),
      extract_env_value ["a", "b"] (.vDict env) = .error part →
      interpolateStr env "pre $env.a.b post" =
        .error (.scenarioError "Missing env value for $env.a.b") := by
    intro env part hex
    simp [interpolateStr, interpolate, parseSegs, isTokenChar, List.takeWhile,
      List.dropWhile, tokenText, hex]
    rfl
  refine ⟨?_, hgen, hctx, ?_⟩
  · simp [interpolateStr, interpolate, parseSegs, extract_env_value, listLookup, pyStr,
      List.takeWhile, List.dropWhile, isTokenChar, tokenText]
  · intro env part out hex
    rw [hctx env part hex]
    simp
